import Mathlib

/-!
Verification of `uboSample.cpp` against its design specification.

The C++ source is shallowly embedded over exact real arithmetic:
`GLfloat` scalars are idealised as `ℝ`, the float literal `3.1415927f`
(float-π, the single-precision conversion constant from degrees to
radians) is idealised as `Real.pi`, and
`std::numeric_limits<float>::epsilon()` as `2⁻²³`.  Struct layout,
dispatch geometry and the render-loop protocol are modelled over `ℕ`
with computable definitions.
-/

namespace Ubo

/- ===== VectorMath (uboSample.cpp lines 21-153) ===== -/

/-- Model of `using vec3 = std::array<GLfloat, 3>`. -/
@[ext]
structure Vec3 where
  x : ℝ
  y : ℝ
  z : ℝ

/-- Model of `using vec4 = std::array<GLfloat, 4>`. -/
@[ext]
structure Vec4 where
  x : ℝ
  y : ℝ
  z : ℝ
  w : ℝ

/-- Model of `dot(a, b)` — uboSample.cpp line 107. -/
noncomputable def dot (a b : Vec3) : ℝ :=
  a.x * b.x + a.y * b.y + a.z * b.z

/-- Model of `cross(a, b)` — uboSample.cpp line 121. -/
noncomputable def cross (a b : Vec3) : Vec3 :=
  ⟨a.y * b.z - a.z * b.y, a.z * b.x - a.x * b.z, a.x * b.y - a.y * b.x⟩

/-- Model of `length(a) = sqrt(dot(a, a))` — uboSample.cpp line 135. -/
noncomputable def length (a : Vec3) : ℝ :=
  Real.sqrt (dot a a)

/-- Model of `std::numeric_limits<float>::epsilon() = 2⁻²³`. -/
noncomputable def eps : ℝ := 1 / 2 ^ 23

/-- Model of `normalize(a)` — uboSample.cpp line 148: if `fabs(len) < eps` the
vector is returned unchanged, otherwise divided componentwise by `len`. -/
noncomputable def normalize (a : Vec3) : Vec3 :=
  if |length a| < eps then a
  else ⟨a.x / length a, a.y / length a, a.z / length a⟩

/- ===== Device-mirrored record types (lines 34-98) and CameraRig (line 170) ===== -/

/-- Model of `struct Camera` — uboSample.cpp line 34. -/
@[ext]
structure Camera where
  origin : Vec3
  right : Vec3
  up : Vec3
  position : Vec3

/-- Model of `setCamera(camera, position, target, up, fovy)` — uboSample.cpp
line 170, as a pure function returning the camera it writes. -/
noncomputable def setCamera (position target up : Vec3) (fovy : ℝ) : Camera :=
  let forward := normalize
    ⟨target.x - position.x, target.y - position.y, target.z - position.z⟩
  let right := normalize (cross forward up)
  let upDir := cross right forward
  let focal := 1 / Real.tan (fovy * 0.5 * Real.pi / 180)
  { origin := ⟨position.x + forward.x * focal,
               position.y + forward.y * focal,
               position.z + forward.z * focal⟩
    right := right
    up := upDir
    position := position }

/-- Componentwise difference of 3-vectors. -/
noncomputable def vsub (a b : Vec3) : Vec3 := ⟨a.x - b.x, a.y - b.y, a.z - b.z⟩

/-- Componentwise sum of 3-vectors. -/
noncomputable def vadd (a b : Vec3) : Vec3 := ⟨a.x + b.x, a.y + b.y, a.z + b.z⟩

/-- Scalar multiple of a 3-vector. -/
noncomputable def vsmul (k : ℝ) (a : Vec3) : Vec3 := ⟨k * a.x, k * a.y, k * a.z⟩

/-- The zero 3-vector. -/
noncomputable def vzero : Vec3 := ⟨0, 0, 0⟩

/-- The view direction `forward = normalize(target − eye)` of spec §4.2 step 1. -/
noncomputable def cameraForward (eye target : Vec3) : Vec3 :=
  normalize (vsub target eye)

/-- The focal factor `1 / tan(fovy/2 in radians)` of spec §4.2 step 4. -/
noncomputable def cameraFocal (fovyDegrees : ℝ) : ℝ :=
  1 / Real.tan (fovyDegrees / 2 * (Real.pi / 180))

/-- Spec §4.2 transcribed from the spec's own step list (refinement model
for C1): forward, right, up', focal, origin, position exactly as the six
numbered steps state them. -/
noncomputable def setCameraSpec (eye target up : Vec3) (fovyDegrees : ℝ) : Camera :=
  let forward := cameraForward eye target
  let right := normalize (cross forward up)
  let upDir := cross right forward
  { origin := vadd eye (vsmul (cameraFocal fovyDegrees) forward)
    right := right
    up := upDir
    position := eye }

/- ===== Basic VectorMath lemmas ===== -/

lemma eps_pos : 0 < eps := by norm_num [eps]

lemma dot_self_nonneg (a : Vec3) : 0 ≤ dot a a := by
  unfold dot
  nlinarith [mul_self_nonneg a.x, mul_self_nonneg a.y, mul_self_nonneg a.z]

lemma length_nonneg (a : Vec3) : 0 ≤ length a :=
  Real.sqrt_nonneg _

lemma abs_length (a : Vec3) : |length a| = length a :=
  abs_of_nonneg (length_nonneg a)

lemma normalize_small {a : Vec3} (h : length a < eps) : normalize a = a := by
  unfold normalize
  rw [if_pos]
  rwa [abs_length]

lemma normalize_eval {a : Vec3} {L : ℝ} (hL : length a = L)
    (h : eps ≤ L) : normalize a = ⟨a.x / L, a.y / L, a.z / L⟩ := by
  unfold normalize
  rw [if_neg, hL]
  rw [abs_length, hL]
  exact not_lt.2 h

lemma sqrt_four : Real.sqrt 4 = 2 := by
  rw [show (4 : ℝ) = 2 ^ 2 by norm_num, Real.sqrt_sq (by norm_num : (0:ℝ) ≤ 2)]

lemma sqrt3_gt : 1.7320508 < Real.sqrt 3 :=
  (Real.lt_sqrt (by norm_num)).2 (by norm_num)

lemma sqrt3_lt : Real.sqrt 3 < 1.7320509 :=
  (Real.sqrt_lt' (by norm_num)).2 (by norm_num)

lemma length_vzero_lt_eps : length vzero < eps := by
  have h : dot vzero vzero = 0 := by norm_num [dot, vzero]
  unfold length
  rw [h, Real.sqrt_zero]
  exact eps_pos

lemma length_unit_x : length (⟨1, 0, 0⟩ : Vec3) = 1 := by
  unfold length
  norm_num [dot, Real.sqrt_one]

/- ===== Projection lemmas for setCamera ===== -/

lemma setCamera_right (p t u : Vec3) (fovy : ℝ) :
    (setCamera p t u fovy).right =
      normalize (cross (normalize ⟨t.x - p.x, t.y - p.y, t.z - p.z⟩) u) := rfl

lemma setCamera_up (p t u : Vec3) (fovy : ℝ) :
    (setCamera p t u fovy).up =
      cross (normalize (cross (normalize ⟨t.x - p.x, t.y - p.y, t.z - p.z⟩) u))
        (normalize ⟨t.x - p.x, t.y - p.y, t.z - p.z⟩) := rfl

lemma setCamera_position (p t u : Vec3) (fovy : ℝ) :
    (setCamera p t u fovy).position = p := rfl

lemma setCamera_origin (p t u : Vec3) (fovy : ℝ) :
    (setCamera p t u fovy).origin =
      ⟨p.x + (normalize ⟨t.x - p.x, t.y - p.y, t.z - p.z⟩).x *
         (1 / Real.tan (fovy * 0.5 * Real.pi / 180)),
       p.y + (normalize ⟨t.x - p.x, t.y - p.y, t.z - p.z⟩).y *
         (1 / Real.tan (fovy * 0.5 * Real.pi / 180)),
       p.z + (normalize ⟨t.x - p.x, t.y - p.y, t.z - p.z⟩).z *
         (1 / Real.tan (fovy * 0.5 * Real.pi / 180))⟩ := rfl

/- ===== Concrete evaluations for the C1 example ===== -/

lemma normalize_c1_fwd : normalize ⟨0, 0, -2⟩ = ⟨0, 0, -1⟩ := by
  have hd : dot ⟨0, 0, -2⟩ ⟨0, 0, -2⟩ = 4 := by norm_num [dot]
  have hL : length (⟨0, 0, -2⟩ : Vec3) = 2 := by
    unfold length; rw [hd]; exact sqrt_four
  rw [normalize_eval hL (by norm_num [eps])]
  norm_num

lemma cross_c1_right : cross ⟨0, 0, -1⟩ ⟨0, 1, 0⟩ = ⟨1, 0, 0⟩ := by
  norm_num [cross]

lemma normalize_c1_right : normalize ⟨1, 0, 0⟩ = ⟨1, 0, 0⟩ := by
  rw [normalize_eval length_unit_x (by norm_num [eps])]
  norm_num

lemma cross_c1_up : cross ⟨1, 0, 0⟩ ⟨0, 0, -1⟩ = ⟨0, 1, 0⟩ := by
  norm_num [cross]

lemma cameraFocal_60 : cameraFocal 60 = Real.sqrt 3 := by
  unfold cameraFocal
  rw [show (60 : ℝ) / 2 * (Real.pi / 180) = Real.pi / 6 by ring,
    Real.tan_pi_div_six, one_div_one_div]

lemma cameraForward_example : cameraForward ⟨0, 0, 2⟩ ⟨0, 0, 0⟩ = ⟨0, 0, -1⟩ := by
  unfold cameraForward vsub
  rw [show (⟨(0:ℝ) - 0, (0:ℝ) - 0, (0:ℝ) - 2⟩ : Vec3) = ⟨0, 0, -2⟩ by norm_num]
  exact normalize_c1_fwd

/-- Claim C1: `setCamera` computes the camera frame by exactly the spec's
six steps (forward, right, up', focal, origin, position — refinement
against `setCameraSpec`, transcribed from the spec's words), and on the
concrete input eye=(0,0,2), target=(0,0,0), up=(0,1,0), fovy=60° it
yields forward=(0,0,−1), right=(1,0,0), up'=(0,1,0),
focal = √3 ≈ 1.7320508, origin = (0,0,2−√3) ≈ (0,0,0.2679492), and
position=(0,0,2). -/
theorem setCamera_follows_spec_steps :
    (∀ eye target up : Vec3, ∀ fovy : ℝ,
        setCamera eye target up fovy = setCameraSpec eye target up fovy) ∧
    cameraForward ⟨0, 0, 2⟩ ⟨0, 0, 0⟩ = ⟨0, 0, -1⟩ ∧
    (setCamera ⟨0, 0, 2⟩ ⟨0, 0, 0⟩ ⟨0, 1, 0⟩ 60).right = ⟨1, 0, 0⟩ ∧
    (setCamera ⟨0, 0, 2⟩ ⟨0, 0, 0⟩ ⟨0, 1, 0⟩ 60).up = ⟨0, 1, 0⟩ ∧
    cameraFocal 60 = Real.sqrt 3 ∧
    |cameraFocal 60 - 1.7320508| < 1 / 1000000 ∧
    (setCamera ⟨0, 0, 2⟩ ⟨0, 0, 0⟩ ⟨0, 1, 0⟩ 60).origin = ⟨0, 0, 2 - Real.sqrt 3⟩ ∧
    |(setCamera ⟨0, 0, 2⟩ ⟨0, 0, 0⟩ ⟨0, 1, 0⟩ 60).origin.z - 0.2679492| < 1 / 1000000 ∧
    (setCamera ⟨0, 0, 2⟩ ⟨0, 0, 0⟩ ⟨0, 1, 0⟩ 60).position = ⟨0, 0, 2⟩ := by
  have hsub : (⟨(0:ℝ) - 0, (0:ℝ) - 0, (0:ℝ) - 2⟩ : Vec3) = ⟨0, 0, -2⟩ := by
    norm_num
  have hfwd := cameraForward_example
  have hfocal60 : (1 : ℝ) / Real.tan (60 * 0.5 * Real.pi / 180) = Real.sqrt 3 := by
    rw [show (60 : ℝ) * 0.5 * Real.pi / 180 = Real.pi / 6 by ring,
      Real.tan_pi_div_six, one_div_one_div]
  refine ⟨?_, hfwd, ?_, ?_, cameraFocal_60, ?_, ?_, ?_, rfl⟩
  · intro eye target up fovy
    show _ = _
    unfold setCamera setCameraSpec cameraForward cameraFocal vsub vadd vsmul
    rw [show fovy * 0.5 * Real.pi / 180 = fovy / 2 * (Real.pi / 180) by ring]
    ext <;> dsimp only <;> ring
  · rw [setCamera_right, hsub, normalize_c1_fwd, cross_c1_right, normalize_c1_right]
  · rw [setCamera_up, hsub, normalize_c1_fwd, cross_c1_right, normalize_c1_right,
      cross_c1_up]
  · rw [cameraFocal_60, abs_sub_lt_iff]
    constructor
    · have := sqrt3_lt; norm_num at this ⊢; linarith
    · have := sqrt3_gt; norm_num at this ⊢; linarith
  · rw [setCamera_origin, hsub, normalize_c1_fwd, hfocal60]
    norm_num [sub_eq_add_neg]
  · rw [setCamera_origin, hsub, normalize_c1_fwd, hfocal60]
    dsimp only
    rw [abs_sub_lt_iff]
    constructor
    · have := sqrt3_gt; norm_num at this ⊢; linarith
    · have := sqrt3_lt; norm_num at this ⊢; linarith

/-- Claim C6: `normalize` returns a vector whose length is below machine
epsilon unchanged, and divides every other vector componentwise by its
length. -/
theorem normalize_small_passthrough :
    (∀ a : Vec3, length a < eps → normalize a = a) ∧
    (∀ a : Vec3, ¬ length a < eps →
        normalize a = ⟨a.x / length a, a.y / length a, a.z / length a⟩) := by
  constructor
  · intro a h
    exact normalize_small h
  · intro a h
    exact normalize_eval rfl (not_lt.1 h)

/-- Witness for C6: the zero vector is passed through unchanged, and a
unit vector is divided by its length. -/
theorem normalize_small_passthrough_attest :
    length vzero < eps ∧ normalize vzero = vzero ∧
    ¬ length (⟨1, 0, 0⟩ : Vec3) < eps ∧
    normalize (⟨1, 0, 0⟩ : Vec3) =
      ⟨1 / length ⟨1, 0, 0⟩, 0 / length ⟨1, 0, 0⟩, 0 / length ⟨1, 0, 0⟩⟩ := by
  have h0 := length_vzero_lt_eps
  have h1 : ¬ length (⟨1, 0, 0⟩ : Vec3) < eps := by
    rw [length_unit_x]
    norm_num [eps]
  exact ⟨h0, normalize_small_passthrough.1 vzero h0, h1,
    normalize_small_passthrough.2 ⟨1, 0, 0⟩ h1⟩

/- ===== Degenerate-case lemmas (C8) ===== -/

lemma normalize_is_smul (a : Vec3) : ∃ s : ℝ, normalize a = vsmul s a := by
  unfold normalize
  by_cases h : |length a| < eps
  · refine ⟨1, ?_⟩
    rw [if_pos h]
    unfold vsmul
    ext <;> dsimp only <;> ring
  · refine ⟨1 / length a, ?_⟩
    rw [if_neg h]
    unfold vsmul
    ext <;> dsimp only <;> ring

lemma cross_smul_smul (s k : ℝ) (d : Vec3) :
    cross (vsmul s d) (vsmul k d) = vzero := by
  unfold cross vsmul vzero
  ext <;> dsimp only <;> ring

lemma cross_vzero_left (b : Vec3) : cross vzero b = vzero := by
  unfold cross vzero
  ext <;> dsimp only <;> ring

lemma normalize_vzero : normalize vzero = vzero :=
  normalize_small length_vzero_lt_eps

/-- Claim C8: when the up vector is parallel to the view direction, the
cross product producing `right` is the zero vector, `normalize` passes it
through unchanged, and the basis collapses: both `right` and `up` of the
resulting camera are zero vectors. -/
theorem setCamera_parallel_up_collapses :
    ∀ (eye target up : Vec3) (fovy k : ℝ), up = vsmul k (vsub target eye) →
      cross (cameraForward eye target) up = vzero ∧
      normalize vzero = vzero ∧
      (setCamera eye target up fovy).right = vzero ∧
      (setCamera eye target up fovy).up = vzero := by
  intro eye target up fovy k hup
  obtain ⟨s, hs⟩ := normalize_is_smul (vsub target eye)
  have hcross : cross (cameraForward eye target) up = vzero := by
    rw [hup]
    unfold cameraForward
    rw [hs]
    exact cross_smul_smul s k _
  have hright : (setCamera eye target up fovy).right = vzero := by
    rw [setCamera_right]
    have : cross (normalize ⟨target.x - eye.x, target.y - eye.y, target.z - eye.z⟩) up
        = cross (cameraForward eye target) up := rfl
    rw [this, hcross]
    exact normalize_vzero
  have hupv : (setCamera eye target up fovy).up = vzero := by
    rw [setCamera_up]
    have : cross (normalize (cross
          (normalize ⟨target.x - eye.x, target.y - eye.y, target.z - eye.z⟩) up))
          (normalize ⟨target.x - eye.x, target.y - eye.y, target.z - eye.z⟩)
        = cross (normalize (cross (cameraForward eye target) up)) (cameraForward eye target) := rfl
    rw [this, hcross, normalize_vzero]
    exact cross_vzero_left _
  exact ⟨hcross, normalize_vzero, hright, hupv⟩

/-- Witness for C8: eye=(0,0,2), target=(0,0,0), up=(0,0,−2) (parallel to
the view direction, k=1) collapses the basis to zero vectors. -/
theorem setCamera_parallel_up_collapses_attest :
    cross (cameraForward ⟨0, 0, 2⟩ ⟨0, 0, 0⟩) ⟨0, 0, -2⟩ = vzero ∧
    (setCamera ⟨0, 0, 2⟩ ⟨0, 0, 0⟩ ⟨0, 0, -2⟩ 60).right = vzero ∧
    (setCamera ⟨0, 0, 2⟩ ⟨0, 0, 0⟩ ⟨0, 0, -2⟩ 60).up = vzero := by
  have hup : (⟨0, 0, -2⟩ : Vec3) = vsmul 1 (vsub ⟨0, 0, 0⟩ ⟨0, 0, 2⟩) := by
    norm_num [vsmul, vsub]
  obtain ⟨h1, _, h3, h4⟩ :=
    setCamera_parallel_up_collapses ⟨0, 0, 2⟩ ⟨0, 0, 0⟩ ⟨0, 0, -2⟩ 60 1 hup
  exact ⟨h1, h3, h4⟩

/- ===== Orthonormality lemmas (C7) ===== -/

lemma dot_smul_left (k : ℝ) (a b : Vec3) : dot (vsmul k a) b = k * dot a b := by
  unfold dot vsmul
  ring

lemma dot_cross_self_left (a b : Vec3) : dot a (cross a b) = 0 := by
  unfold dot cross
  ring

lemma dot_cross_self_right (a b : Vec3) : dot (cross a b) a = 0 := by
  unfold dot cross
  ring

lemma dot_cross_lagrange (a b : Vec3) :
    dot (cross a b) (cross a b) = dot a a * dot b b - dot a b ^ 2 := by
  unfold dot cross
  ring

lemma normalize_smul_form {a : Vec3} (h : eps ≤ length a) :
    normalize a = vsmul (1 / length a) a := by
  rw [normalize_eval rfl h]
  unfold vsmul
  ext <;> dsimp only <;> ring

lemma dot_normalize_self {a : Vec3} (h : eps ≤ length a) :
    dot (normalize a) (normalize a) = 1 := by
  have hL : 0 < length a := lt_of_lt_of_le eps_pos h
  have hself : length a * length a = dot a a :=
    Real.mul_self_sqrt (dot_self_nonneg a)
  rw [normalize_eval rfl h]
  unfold dot at hself ⊢
  field_simp
  linarith

lemma length_normalize {a : Vec3} (h : eps ≤ length a) :
    length (normalize a) = 1 := by
  unfold length
  rw [dot_normalize_self h, Real.sqrt_one]

/-- Claim C7 (amended): when both the view vector `target − eye` and the
cross product `cross(forward, up)` have length at least machine epsilon,
the camera basis is exactly orthonormal in this exact-arithmetic model:
`dot(right, up') = 0`, `dot(right, forward) = 0`, `|right| = 1`,
`|up'| = 1`, and `origin = eye + focal·forward`. -/
theorem setCamera_orthonormal_basis :
    ∀ (eye target up : Vec3) (fovy : ℝ),
      eps ≤ length (vsub target eye) →
      eps ≤ length (cross (cameraForward eye target) up) →
      dot (setCamera eye target up fovy).right (setCamera eye target up fovy).up = 0 ∧
      dot (setCamera eye target up fovy).right (cameraForward eye target) = 0 ∧
      length (setCamera eye target up fovy).right = 1 ∧
      length (setCamera eye target up fovy).up = 1 ∧
      (setCamera eye target up fovy).origin =
        vadd eye (vsmul (cameraFocal fovy) (cameraForward eye target)) := by
  intro eye target up fovy h1 h2
  have hf : dot (cameraForward eye target) (cameraForward eye target) = 1 := by
    unfold cameraForward
    exact dot_normalize_self h1
  have hrightdef : (setCamera eye target up fovy).right =
      normalize (cross (cameraForward eye target) up) := rfl
  have hupdef : (setCamera eye target up fovy).up =
      cross (normalize (cross (cameraForward eye target) up)) (cameraForward eye target) := rfl
  have hrr : dot (normalize (cross (cameraForward eye target) up))
      (normalize (cross (cameraForward eye target) up)) = 1 :=
    dot_normalize_self h2
  have hrf : dot (normalize (cross (cameraForward eye target) up))
      (cameraForward eye target) = 0 := by
    rw [normalize_smul_form h2, dot_smul_left, dot_cross_self_right, mul_zero]
  refine ⟨?_, ?_, ?_, ?_, ?_⟩
  · rw [hrightdef, hupdef]
    exact dot_cross_self_left _ _
  · rw [hrightdef]
    exact hrf
  · rw [hrightdef]
    exact length_normalize h2
  · rw [hupdef]
    have hdd : dot (cross (normalize (cross (cameraForward eye target) up))
          (cameraForward eye target))
        (cross (normalize (cross (cameraForward eye target) up))
          (cameraForward eye target)) = 1 := by
      rw [dot_cross_lagrange, hrr, hf, hrf]
      norm_num
    unfold length
    rw [hdd, Real.sqrt_one]
  · rw [setCamera_origin]
    unfold vadd vsmul cameraFocal cameraForward vsub
    rw [show fovy * 0.5 * Real.pi / 180 = fovy / 2 * (Real.pi / 180) by ring]
    ext <;> dsimp only <;> ring

/-- Witness for C7: at eye=(0,0,2), target=(0,0,0), up=(0,1,0), fovy=60°
both non-degeneracy bounds hold and the basis is exactly orthonormal. -/
theorem setCamera_orthonormal_basis_attest :
    dot (setCamera ⟨0, 0, 2⟩ ⟨0, 0, 0⟩ ⟨0, 1, 0⟩ 60).right
      (setCamera ⟨0, 0, 2⟩ ⟨0, 0, 0⟩ ⟨0, 1, 0⟩ 60).up = 0 ∧
    length (setCamera ⟨0, 0, 2⟩ ⟨0, 0, 0⟩ ⟨0, 1, 0⟩ 60).right = 1 ∧
    length (setCamera ⟨0, 0, 2⟩ ⟨0, 0, 0⟩ ⟨0, 1, 0⟩ 60).up = 1 := by
  have h1 : eps ≤ length (vsub ⟨0, 0, 0⟩ ⟨0, 0, 2⟩) := by
    have hd : dot (vsub ⟨0, 0, 0⟩ ⟨0, 0, 2⟩) (vsub ⟨0, 0, 0⟩ ⟨0, 0, 2⟩) = 4 := by
      norm_num [dot, vsub]
    unfold length
    rw [hd, sqrt_four]
    norm_num [eps]
  have h2 : eps ≤ length (cross (cameraForward ⟨0, 0, 2⟩ ⟨0, 0, 0⟩) ⟨0, 1, 0⟩) := by
    rw [cameraForward_example, cross_c1_right, length_unit_x]
    norm_num [eps]
  obtain ⟨ha, _, hc, hd, _⟩ :=
    setCamera_orthonormal_basis ⟨0, 0, 2⟩ ⟨0, 0, 0⟩ ⟨0, 1, 0⟩ 60 h1 h2
  exact ⟨ha, hc, hd⟩

/-- Counterexample for C7 as stated: with eye=(0,0,0), target=(0,0,−1) and
up=(2⁻²⁴, 0, −1), `up` is not parallel to the view direction — the cross
product is nonzero — yet the length of the resulting `right` vector is
below 1/2, nowhere near 1: the epsilon pass-through in `normalize` leaves
the tiny cross product unnormalized. -/
theorem setCamera_orthonormal_basis_cex :
    cross (cameraForward ⟨0, 0, 0⟩ ⟨0, 0, -1⟩) ⟨1 / 16777216, 0, -1⟩ ≠ vzero ∧
    length (setCamera ⟨0, 0, 0⟩ ⟨0, 0, -1⟩ ⟨1 / 16777216, 0, -1⟩ 60).right < 1 / 2 := by
  have hfwd : cameraForward ⟨0, 0, 0⟩ ⟨0, 0, -1⟩ = ⟨0, 0, -1⟩ := by
    unfold cameraForward vsub
    rw [show (⟨(0:ℝ) - 0, (0:ℝ) - 0, (-1:ℝ) - 0⟩ : Vec3) = ⟨0, 0, -1⟩ by norm_num]
    have hL : length (⟨0, 0, -1⟩ : Vec3) = 1 := by
      unfold length
      norm_num [dot, Real.sqrt_one]
    rw [normalize_eval hL (by norm_num [eps])]
    norm_num
  have hcross : cross (⟨0, 0, -1⟩ : Vec3) ⟨1 / 16777216, 0, -1⟩
      = ⟨0, -(1 / 16777216), 0⟩ := by
    norm_num [cross]
  have hlen : length (⟨0, -(1 / 16777216), 0⟩ : Vec3) = 1 / 16777216 := by
    have hd : dot (⟨0, -(1 / 16777216), 0⟩ : Vec3) ⟨0, -(1 / 16777216), 0⟩
        = (1 / 16777216) ^ 2 := by
      norm_num [dot]
    unfold length
    rw [hd, Real.sqrt_sq (by norm_num : (0:ℝ) ≤ 1 / 16777216)]
  constructor
  · rw [hfwd, hcross]
    intro h
    have := congrArg Vec3.y h
    norm_num [vzero] at this
  · rw [setCamera_right]
    have harg : (⟨(0:ℝ) - 0, (0:ℝ) - 0, (-1:ℝ) - 0⟩ : Vec3) = ⟨0, 0, -1⟩ := by
      norm_num
    rw [harg]
    have hnfwd : normalize (⟨0, 0, -1⟩ : Vec3) = ⟨0, 0, -1⟩ := by
      have hL : length (⟨0, 0, -1⟩ : Vec3) = 1 := by
        unfold length
        norm_num [dot, Real.sqrt_one]
      rw [normalize_eval hL (by norm_num [eps])]
      norm_num
    rw [hnfwd, hcross, normalize_small (by rw [hlen]; norm_num [eps]), hlen]
    norm_num

/- ===== Struct layout model (C2) =====
C++ places each member at the next offset that is a multiple of its
alignment; `alignas(16)` raises a member's alignment to 16.  `vec3` is
12 bytes (natural alignment 4), `vec4` 16 bytes, `float` and `int` 4
bytes each. -/

/-- A struct member: byte size, alignment, and whether it is a
multi-component (vector) member. -/
structure LayoutMember where
  size : ℕ
  align : ℕ
  isVec : Bool
deriving DecidableEq

/-- Round `n` up to the next multiple of `a`. -/
def alignUp (n a : ℕ) : ℕ := (n + a - 1) / a * a

/-- Offsets of the members of a struct laid out from byte `off`. -/
def offsetsFrom : ℕ → List LayoutMember → List ℕ
  | _, [] => []
  | off, m :: ms =>
    let o := alignUp off m.align
    o :: offsetsFrom (o + m.size) ms

/-- C++ member offsets of a struct. -/
def structOffsets (ms : List LayoutMember) : List ℕ := offsetsFrom 0 ms

/-- One-past-the-end byte of the last member. -/
def structEnd : ℕ → List LayoutMember → ℕ
  | off, [] => off
  | off, m :: ms => structEnd (alignUp off m.align + m.size) ms

/-- Struct alignment: the maximum member alignment. -/
def structAlign (ms : List LayoutMember) : ℕ :=
  ms.foldr (fun m a => max m.align a) 1

/-- Model of `sizeof`: the end offset rounded up to the struct alignment. -/
def structSize (ms : List LayoutMember) : ℕ :=
  alignUp (structEnd 0 ms) (structAlign ms)

/-- Model of `alignas(16) vec3`. -/
def vec3Mem : LayoutMember := ⟨12, 16, true⟩

/-- Model of `alignas(16) vec4`. -/
def vec4Mem : LayoutMember := ⟨16, 16, true⟩

/-- Model of `struct Camera` members — uboSample.cpp lines 34-47. -/
def cameraMembers : List LayoutMember := [vec3Mem, vec3Mem, vec3Mem, vec3Mem]

/-- Model of `struct Light` members — lines 52-65. -/
def lightMembers : List LayoutMember := [vec4Mem, vec4Mem, vec4Mem, vec4Mem]

/-- Model of `struct Material` members — lines 70-83 (`alignas(4) float shininess`). -/
def materialMembers : List LayoutMember := [vec4Mem, vec4Mem, vec4Mem, ⟨4, 4, false⟩]

/-- Model of `struct Sphere` members — lines 88-98 (`alignas(16) vec3 center`,
`float radius`, `int materialIndex`, both scalars at natural alignment). -/
def sphereMembers : List LayoutMember := [⟨12, 16, true⟩, ⟨4, 4, false⟩, ⟨4, 4, false⟩]

/-- Every vector member sits at a 16-byte-aligned offset and every scalar
member at a 4-byte-aligned offset. -/
def layoutAligned (ms : List LayoutMember) : Bool :=
  (List.zip (structOffsets ms) ms).all fun p =>
    if p.2.isVec then p.1 % 16 == 0 else p.1 % 4 == 0

/-- Modelled from the spec: the compute kernel `raycast.comp` is not part of
the repository sources; per spec §6 its binding-point-0 storage block
declares each Sphere record as center:3×4-byte, then radius:4-byte, then
materialIndex:4-byte, i.e. member offsets 0, 12 and 16. -/
def kernelSphereOffsets : List ℕ := [0, 12, 16]

/-- Modelled from the spec: the kernel-side member sizes of a Sphere record
(center 3×4 bytes, radius 4 bytes, materialIndex 4 bytes). -/
def kernelSphereSizes : List ℕ := [12, 4, 4]

/-- Claim C2: every device-mirrored record (Camera, Light, Material,
Sphere) places each multi-component member at a 16-byte-aligned offset and
each scalar member at 4-byte alignment; the Sphere record lays out
center as 3 four-byte floats at offset 0, the 4-byte radius at offset 12
and the 4-byte materialIndex at offset 16, matching the kernel's declared
block layout. -/
theorem deviceRecords_layout :
    structOffsets cameraMembers = [0, 16, 32, 48] ∧
    structOffsets lightMembers = [0, 16, 32, 48] ∧
    structOffsets materialMembers = [0, 16, 32, 48] ∧
    structOffsets sphereMembers = [0, 12, 16] ∧
    layoutAligned cameraMembers = true ∧
    layoutAligned lightMembers = true ∧
    layoutAligned materialMembers = true ∧
    layoutAligned sphereMembers = true ∧
    structOffsets sphereMembers = kernelSphereOffsets ∧
    sphereMembers.map LayoutMember.size = kernelSphereSizes ∧
    structSize cameraMembers = 64 ∧
    structSize lightMembers = 64 ∧
    structSize materialMembers = 64 ∧
    structSize sphereMembers = 32 := by
  decide

/- ===== ComputeDispatcher and InteractiveLoop protocol (C4, C5) ===== -/

/-- Model of `const GLsizei width` (value 960) — uboSample.cpp line 16. -/
def width : ℕ := 960

/-- Model of `const GLsizei height` (value 540) — uboSample.cpp line 19. -/
def height : ℕ := 540

/-- The GL commands of one loop iteration that the dispatcher protocol is
about, in source order (lines 357-490). -/
inductive GLAction where
  | menu : GLAction
  | bindBufferBase (point : ℕ) : GLAction
  | bindImage (unit : ℕ) : GLAction
  | dispatch (x y z : ℕ) : GLAction
  | barrier : GLAction
  | unbindImage (unit : ℕ) : GLAction
  | unbindBufferBase (point : ℕ) : GLAction
  | blit : GLAction
  | swapBuffers : GLAction
deriving DecidableEq

/-- One iteration of the render loop, transcribed from lines 357-490:
menu/edit section, bind sphere SSBO to point 0 and the camera/light/
material UBOs to points 1-3, bind the image to unit 0, dispatch a
width×height×1 grid, barrier, unbind image and the four buffers, blit,
swap. -/
def frameActions : List GLAction :=
  [.menu,
   .bindBufferBase 0, .bindBufferBase 1, .bindBufferBase 2, .bindBufferBase 3,
   .bindImage 0,
   .dispatch width height 1,
   .barrier,
   .unbindImage 0,
   .unbindBufferBase 0, .unbindBufferBase 1, .unbindBufferBase 2, .unbindBufferBase 3,
   .blit, .swapBuffers]

/-- Dispatcher phases of spec §4.5. -/
inductive Phase where
  | idle
  | bound
  | dispatched
  | barriered
  | unbound
deriving DecidableEq

/-- Phase transition on one GL command. -/
def stepPhase (p : Phase) (a : GLAction) : Phase :=
  match a with
  | .menu => p
  | .bindBufferBase _ => .bound
  | .bindImage _ => .bound
  | .dispatch _ _ _ => .dispatched
  | .barrier => .barriered
  | .unbindImage _ => .unbound
  | .unbindBufferBase _ => .unbound
  | .blit => .idle
  | .swapBuffers => .idle

/-- The render loop: `while (window) { ...frame... }`.  Each poll of the
surface yields a liveness flag; a live poll runs one frame, the first
not-live poll exits. -/
def loopRun : List Bool → List GLAction
  | [] => []
  | false :: _ => []
  | true :: rest => frameActions ++ loopRun rest

lemma loopRun_join (bs : List Bool) :
    loopRun bs =
      (List.replicate (bs.takeWhile (fun b => b)).length frameActions).flatten := by
  induction bs with
  | nil => rfl
  | cons b rest ih =>
    cases b
    · rfl
    · simp only [loopRun, List.takeWhile, List.length_cons, List.replicate,
        List.flatten_cons, ih]

lemma foldPhase_frame : List.foldl stepPhase Phase.idle frameActions = Phase.idle := by
  decide

lemma foldPhase_loopRun (bs : List Bool) :
    List.foldl stepPhase Phase.idle (loopRun bs) = Phase.idle := by
  induction bs with
  | nil => rfl
  | cons b rest ih =>
    cases b
    · rfl
    · simp only [loopRun, List.foldl_append, foldPhase_frame, ih]

/-- Claim C5: each loop iteration performs, in order: the menu section,
binding the sphere storage buffer to point 0 and the camera/light/material
uniform buffers to points 1-3, binding the image to unit 0, one dispatch,
the write-completion barrier, unbinding the image and all four buffers,
then the blit and the swap; the phase trace is the strict sequence
Idle → Bound → Dispatched → Barriered → Unbound → Idle; every frame starts
and ends in Idle (no overlap between frames); and the loop exits exactly
at the first not-live poll. -/
theorem renderLoop_protocol :
    frameActions =
      [.menu, .bindBufferBase 0, .bindBufferBase 1, .bindBufferBase 2,
       .bindBufferBase 3, .bindImage 0, .dispatch 960 540 1, .barrier,
       .unbindImage 0, .unbindBufferBase 0, .unbindBufferBase 1,
       .unbindBufferBase 2, .unbindBufferBase 3, .blit, .swapBuffers] ∧
    List.scanl stepPhase Phase.idle frameActions =
      [.idle, .idle, .bound, .bound, .bound, .bound, .bound, .dispatched,
       .barriered, .unbound, .unbound, .unbound, .unbound, .unbound,
       .idle, .idle] ∧
    (∀ bs, loopRun (true :: bs) = frameActions ++ loopRun bs) ∧
    (∀ bs : List Bool, loopRun (false :: bs) = []) ∧
    loopRun [] = [] ∧
    (∀ bs, loopRun bs =
       (List.replicate (bs.takeWhile (fun b => b)).length frameActions).flatten) ∧
    (∀ bs, List.foldl stepPhase Phase.idle (loopRun bs) = Phase.idle) := by
  refine ⟨by decide, by decide, fun bs => rfl, fun bs => rfl, rfl,
    loopRun_join, foldPhase_loopRun⟩

lemma dispatch_mem_frame {x y z : ℕ} (h : GLAction.dispatch x y z ∈ frameActions) :
    x = width ∧ y = height ∧ z = 1 := by
  simp only [frameActions, List.mem_cons, List.not_mem_nil, or_false] at h
  rcases h with h | h | h | h | h | h | h | h | h | h | h | h | h | h | h <;>
    first
      | (injection h with hx hy hz; exact ⟨hx, hy, hz⟩)
      | exact absurd h (by decide)
      | cases h

/-- Claim C4: on every frame the compute kernel is invoked with a
work-group grid of exactly width × height × 1; with width = 960 and
height = 540 every dispatch in any run of the loop has grid 960×540×1,
and each live frame contains such a dispatch. -/
theorem dispatch_grid_covers_pixels :
    width = 960 ∧ height = 540 ∧
    GLAction.dispatch width height 1 ∈ frameActions ∧
    (∀ (bs : List Bool) (x y z : ℕ),
        GLAction.dispatch x y z ∈ loopRun bs → x = 960 ∧ y = 540 ∧ z = 1) := by
  refine ⟨rfl, rfl, by decide, ?_⟩
  intro bs x y z h
  induction bs with
  | nil => cases h
  | cons b rest ih =>
    cases b
    · cases h
    · simp only [loopRun, List.mem_append] at h
      rcases h with h | h
      · have := dispatch_mem_frame h
        exact ⟨this.1, this.2.1, this.2.2⟩
      · exact ih h

/-- Witness for C4: the single-frame run contains a dispatch, and its grid
is 960×540×1. -/
theorem dispatch_grid_covers_pixels_attest :
    GLAction.dispatch 960 540 1 ∈ loopRun [true] ∧
    (960 = 960 ∧ 540 = 540 ∧ 1 = 1) := by
  have hmem : GLAction.dispatch 960 540 1 ∈ loopRun [true] := by decide
  exact ⟨hmem, dispatch_grid_covers_pixels.2.2.2 [true] 960 540 1 hmem⟩

/- ===== Startup checks and exit code (C9) ===== -/

/-- How `GgApp::main` ends: a thrown `std::runtime_error` (abnormal exit)
or a returned exit code. -/
inductive ExitResult where
  | thrown (msg : String)
  | code (n : ℤ)
deriving DecidableEq

/-- Message of the window-creation failure — uboSample.cpp line 218. -/
def windowErrorMsg : String := "ウィンドウの作成に失敗しました"

/-- Message of the shader-load failure — uboSample.cpp line 224. -/
def shaderErrorMsg : String := "シェーダの読み込みに失敗しました"

/-- Model of `GgApp::main` — lines 212-509: check the window handle, check the
shader handle, run the loop while the surface is live, return 0.  The
result is the exit outcome together with the GL command trace. -/
def ggMain (windowOk : Bool) (shader : ℕ) (live : List Bool) :
    ExitResult × List GLAction :=
  if windowOk = false then (.thrown windowErrorMsg, [])
  else if shader = 0 then (.thrown shaderErrorMsg, [])
  else (.code 0, loopRun live)

/-- Claim C9: exactly two fatal preconditions are checked at startup —
window creation failure and a zero shader handle — each terminating
abnormally with a descriptive message before any frame runs; any other
run reaches normal termination with exit code 0, and a thrown result is
never the normal exit code 0. -/
theorem startup_checks_and_exit_code :
    (∀ (sh : ℕ) (live : List Bool),
        ggMain false sh live = (.thrown windowErrorMsg, [])) ∧
    (∀ live : List Bool, ggMain true 0 live = (.thrown shaderErrorMsg, [])) ∧
    (∀ (sh : ℕ) (live : List Bool), sh ≠ 0 →
        ggMain true sh live = (.code 0, loopRun live)) ∧
    windowErrorMsg ≠ "" ∧
    shaderErrorMsg ≠ "" ∧
    (∀ msg : String, ExitResult.thrown msg ≠ ExitResult.code 0) ∧
    (∀ (w : Bool) (sh : ℕ) (live : List Bool) (msg : String)
        (trace : List GLAction), ggMain w sh live = (.thrown msg, trace) →
        (w = false ∧ msg = windowErrorMsg) ∨ (sh = 0 ∧ msg = shaderErrorMsg)) := by
  refine ⟨fun sh live => rfl, fun live => rfl, ?_, by decide, by decide,
    ?_, ?_⟩
  · intro sh live hsh
    unfold ggMain
    rw [if_neg (by simp), if_neg hsh]
  · intro msg h
    cases h
  · intro w sh live msg trace h
    cases w
    · left
      refine ⟨rfl, ?_⟩
      unfold ggMain at h
      rw [if_pos rfl, Prod.mk.injEq] at h
      injection h.1 with hm
      exact hm.symm
    · by_cases hsh : sh = 0
      · right
        refine ⟨hsh, ?_⟩
        subst hsh
        unfold ggMain at h
        rw [if_neg (by simp), if_pos rfl, Prod.mk.injEq] at h
        injection h.1 with hm
        exact hm.symm
      · exfalso
        unfold ggMain at h
        rw [if_neg (by simp), if_neg hsh, Prod.mk.injEq] at h
        exact absurd h.1 (by simp)

/-- Witness for C9: with a live window, a nonzero shader handle and one
not-live poll, the program exits normally with code 0 and an empty trace. -/
theorem startup_checks_and_exit_code_attest :
    ggMain true 1 [false] = (.code 0, []) := by
  have h := startup_checks_and_exit_code.2.2.1 1 [false] (by decide)
  simpa using h

/- ===== SceneStore and edit-panel model (C3, C10) ===== -/

/-- Model of `struct Light` — uboSample.cpp line 52. -/
structure Light where
  ambient : Vec4
  diffuse : Vec4
  specular : Vec4
  position : Vec4

/-- Model of `struct Material` — uboSample.cpp line 70. -/
structure Material where
  ambient : Vec4
  diffuse : Vec4
  specular : Vec4
  shininess : ℝ

/-- Model of `light[0]` — lines 259-262. -/
noncomputable def light0 : Light :=
  { ambient := ⟨0.2, 0.2, 0.2, 1⟩
    diffuse := ⟨1, 1, 1, 0⟩
    specular := ⟨1, 1, 1, 0⟩
    position := ⟨3, 4, 5, 1⟩ }

/-- Model of `light[1]` — lines 264-267. -/
noncomputable def light1 : Light :=
  { ambient := ⟨0.1, 0.1, 0, 1⟩
    diffuse := ⟨0.5, 0.5, 0, 0⟩
    specular := ⟨0.5, 0.5, 0, 0⟩
    position := ⟨-5, 1, 3, 1⟩ }

/-- Model of `std::array<Light, 2> light` — line 257. -/
noncomputable def initialLights : List Light := [light0, light1]

/-- Model of `material[0]` — lines 286-289. -/
noncomputable def material0 : Material :=
  { ambient := ⟨0.6, 0.1, 0.1, 1⟩
    diffuse := ⟨0.6, 0.1, 0.1, 0⟩
    specular := ⟨0.3, 0.3, 0.3, 0⟩
    shininess := 100 }

/-- Model of `material[1]` — lines 291-294. -/
noncomputable def material1 : Material :=
  { ambient := ⟨0.1, 0.1, 0.6, 1⟩
    diffuse := ⟨0.1, 0.1, 0.6, 0⟩
    specular := ⟨0.3, 0.3, 0.3, 0⟩
    shininess := 100 }

/-- Model of `std::array<Material, 2> material` — line 284. -/
noncomputable def initialMaterials : List Material := [material0, material1]

/-- Overwrite the first three components of a 4-vector, keeping the
fourth: `DragFloat3`/`ColorEdit3` expose exactly three scalars of the
underlying `vec4`. -/
def setXYZ (v : Vec4) (a b c : ℝ) : Vec4 := ⟨a, b, c, v.w⟩

/-- A single-field edit of one light, as the panel exposes it
(lines 400-403): position via `DragFloat3` (x,y,z only), the three color
components via `ColorEdit3` (r,g,b only). -/
inductive LightEdit where
  | position (a b c : ℝ)
  | ambient (a b c : ℝ)
  | diffuse (a b c : ℝ)
  | specular (a b c : ℝ)

/-- Apply one light-field edit in place. -/
def applyLightEdit (l : Light) : LightEdit → Light
  | .position a b c => { l with position := setXYZ l.position a b c }
  | .ambient a b c => { l with ambient := setXYZ l.ambient a b c }
  | .diffuse a b c => { l with diffuse := setXYZ l.diffuse a b c }
  | .specular a b c => { l with specular := setXYZ l.specular a b c }

/-- A single-field edit of one material (lines 420-423). -/
inductive MaterialEdit where
  | ambient (a b c : ℝ)
  | diffuse (a b c : ℝ)
  | specular (a b c : ℝ)
  | shininess (s : ℝ)

/-- Apply one material-field edit in place. -/
def applyMaterialEdit (m : Material) : MaterialEdit → Material
  | .ambient a b c => { m with ambient := setXYZ m.ambient a b c }
  | .diffuse a b c => { m with diffuse := setXYZ m.diffuse a b c }
  | .specular a b c => { m with specular := setXYZ m.specular a b c }
  | .shininess s => { m with shininess := s }

/-- Replace the element at index `i` by `f` of itself (in-place array
mutation `light[targetLight] = ...`). -/
def modifyAt {α : Type} (i : ℕ) (f : α → α) : List α → List α
  | [] => []
  | a :: as =>
    match i with
    | 0 => f a :: as
    | Nat.succ j => a :: modifyAt j f as

/-- The camera parameters the panel can edit (lines 377-380). -/
structure ViewParams where
  position : Vec3
  target : Vec3
  up : Vec3
  fovy : ℝ

/-- The CPU-side scene state together with the device-side buffer
contents mirrored by the three uniform buffer objects. -/
structure AppState where
  view : ViewParams
  camera : Camera
  lights : List Light
  materials : List Material
  targetLight : ℕ
  targetMaterial : ℕ
  devCamera : Camera
  devLights : List Light
  devMaterials : List Material

/-- What one rendering of the edit panel reports back: the (clamped)
selector values and, per section, the edited field when the section's
changed flag fired. -/
structure MenuReport where
  newTargetLight : ℕ
  newTargetMaterial : ℕ
  cameraEdit : Option ViewParams
  lightEdit : Option LightEdit
  materialEdit : Option MaterialEdit

/-- The menu section of the loop body (lines 363-436): on a camera change
recompute `setCamera` and re-upload the whole camera UBO; on a light
change apply the field edit and re-upload the whole light UBO
(`glBufferSubData(0, sizeof light)`); on a material change likewise for
the material UBO.  Sections that report no change upload nothing. -/
noncomputable def applyMenu (st : AppState) (r : MenuReport) : AppState :=
  let st1 :=
    match r.cameraEdit with
    | none => st
    | some vp =>
      let cam := setCamera vp.position vp.target vp.up vp.fovy
      { st with view := vp, camera := cam, devCamera := cam }
  let tl := min r.newTargetLight (st1.lights.length - 1)
  let st2 :=
    match r.lightEdit with
    | none => { st1 with targetLight := tl }
    | some e =>
      let ls := modifyAt tl (fun l => applyLightEdit l e) st1.lights
      { st1 with targetLight := tl, lights := ls, devLights := ls }
  let tm := min r.newTargetMaterial (st2.materials.length - 1)
  match r.materialEdit with
  | none => { st2 with targetMaterial := tm }
  | some e =>
    let ms := modifyAt tm (fun m => applyMaterialEdit m e) st2.materials
    { st2 with targetMaterial := tm, materials := ms, devMaterials := ms }

/-- One loop iteration's effect on the scene state: when the panel is not
shown no edit can occur. -/
noncomputable def applyFrame (st : AppState) : Option MenuReport → AppState
  | none => st
  | some r => applyMenu st r

/-- The scene state after a sequence of loop iterations. -/
noncomputable def runFrames (st : AppState) : List (Option MenuReport) → AppState
  | [] => st
  | r :: rs => runFrames (applyFrame st r) rs

/-- The state at the top of the loop (lines 231-330): initial view
parameters, camera from `setCamera`, the two lights and two materials,
all device buffers freshly uploaded with the CPU data. -/
noncomputable def initialState : AppState :=
  let cam := setCamera ⟨0, 0, 2⟩ ⟨0, 0, 0⟩ ⟨0, 1, 0⟩ 60
  { view := ⟨⟨0, 0, 2⟩, ⟨0, 0, 0⟩, ⟨0, 1, 0⟩, 60⟩
    camera := cam
    lights := initialLights
    materials := initialMaterials
    targetLight := 0
    targetMaterial := 0
    devCamera := cam
    devLights := initialLights
    devMaterials := initialMaterials }

/-- Claim C3: an edit of a single field of one light re-uploads the whole
light collection — afterwards the device light buffer equals the full
current CPU-side light collection — while the camera and material device
buffers are unchanged; symmetrically, a single material-field edit
re-uploads only the whole material buffer. -/
theorem single_edit_full_reupload :
    (∀ (st : AppState) (tl tm : ℕ) (e : LightEdit),
      (applyMenu st ⟨tl, tm, none, some e, none⟩).devLights =
        (applyMenu st ⟨tl, tm, none, some e, none⟩).lights ∧
      (applyMenu st ⟨tl, tm, none, some e, none⟩).lights =
        modifyAt (min tl (st.lights.length - 1))
          (fun l => applyLightEdit l e) st.lights ∧
      (applyMenu st ⟨tl, tm, none, some e, none⟩).devCamera = st.devCamera ∧
      (applyMenu st ⟨tl, tm, none, some e, none⟩).devMaterials = st.devMaterials) ∧
    (∀ (st : AppState) (tl tm : ℕ) (e : MaterialEdit),
      (applyMenu st ⟨tl, tm, none, none, some e⟩).devMaterials =
        (applyMenu st ⟨tl, tm, none, none, some e⟩).materials ∧
      (applyMenu st ⟨tl, tm, none, none, some e⟩).materials =
        modifyAt (min tm (st.materials.length - 1))
          (fun m => applyMaterialEdit m e) st.materials ∧
      (applyMenu st ⟨tl, tm, none, none, some e⟩).devCamera = st.devCamera ∧
      (applyMenu st ⟨tl, tm, none, none, some e⟩).devLights = st.devLights) :=
  ⟨fun st tl tm e => ⟨rfl, rfl, rfl, rfl⟩, fun st tl tm e => ⟨rfl, rfl, rfl, rfl⟩⟩

lemma applyLightEdit_w (l : Light) (e : LightEdit) :
    (applyLightEdit l e).position.w = l.position.w := by
  cases e <;> rfl

lemma mem_modifyAt {α : Type} (f : α → α) :
    ∀ (i : ℕ) (xs : List α) (a : α), a ∈ modifyAt i f xs →
      a ∈ xs ∨ ∃ b ∈ xs, a = f b := by
  intro i
  induction i with
  | zero =>
    intro xs a h
    cases xs with
    | nil => cases h
    | cons x xs =>
      rcases List.mem_cons.1 h with h | h
      · exact Or.inr ⟨x, List.mem_cons_self x xs, h⟩
      · exact Or.inl (List.mem_cons_of_mem x h)
  | succ j ih =>
    intro xs a h
    cases xs with
    | nil => cases h
    | cons x xs =>
      rcases List.mem_cons.1 h with h | h
      · exact Or.inl (h ▸ List.mem_cons_self x xs)
      · rcases ih xs a h with h | ⟨b, hb, hab⟩
        · exact Or.inl (List.mem_cons_of_mem x h)
        · exact Or.inr ⟨b, List.mem_cons_of_mem x hb, hab⟩

lemma applyMenu_lights_cases (st : AppState) (r : MenuReport) :
    (applyMenu st r).lights = st.lights ∨
    ∃ (i : ℕ) (e : LightEdit), (applyMenu st r).lights =
      modifyAt i (fun l => applyLightEdit l e) st.lights := by
  obtain ⟨tl, tm, ce, le, me⟩ := r
  cases ce <;> cases le <;> cases me
  case none.none.none => exact Or.inl rfl
  case none.none.some e => exact Or.inl rfl
  case none.some.none e => exact Or.inr ⟨_, e, rfl⟩
  case none.some.some e e' => exact Or.inr ⟨_, e, rfl⟩
  case some.none.none vp => exact Or.inl rfl
  case some.none.some vp e => exact Or.inl rfl
  case some.some.none vp e => exact Or.inr ⟨_, e, rfl⟩
  case some.some.some vp e e' => exact Or.inr ⟨_, e, rfl⟩

lemma runFrames_lights_w (frames : List (Option MenuReport)) :
    ∀ st : AppState, (∀ l ∈ st.lights, l.position.w = 1) →
      ∀ l ∈ (runFrames st frames).lights, l.position.w = 1 := by
  induction frames with
  | nil => intro st h l hl; exact h l hl
  | cons r rs ih =>
    intro st h
    apply ih
    intro l hl
    rcases r with _ | rep
    · exact h l hl
    · rcases applyMenu_lights_cases st rep with hc | ⟨i, e, hc⟩
      · rw [show applyFrame st (some rep) = applyMenu st rep from rfl, hc] at hl
        exact h l hl
      · rw [show applyFrame st (some rep) = applyMenu st rep from rfl, hc] at hl
        rcases mem_modifyAt _ _ _ _ hl with hmem | ⟨b, hb, hab⟩
        · exact h l hmem
        · rw [hab, applyLightEdit_w]
          exact h b hb

lemma initialLights_w : ∀ l ∈ initialLights, l.position.w = 1 := by
  intro l hl
  rcases List.mem_cons.1 hl with h | h
  · rw [h]; rfl
  · rcases List.mem_cons.1 h with h | h
    · rw [h]; rfl
    · cases h

/-- Claim C10: both lights start with position.w = 1 (point lights), every
light edit the panel exposes leaves the w component untouched, and hence
after any sequence of loop iterations every light in the scene still has
position.w = 1 — no operation of the interactive loop can turn a point
light into a directional one. -/
theorem lights_stay_point_lights :
    (∀ l ∈ initialLights, l.position.w = 1) ∧
    (∀ (l : Light) (e : LightEdit),
        (applyLightEdit l e).position.w = l.position.w) ∧
    (∀ frames : List (Option MenuReport),
        ∀ l ∈ (runFrames initialState frames).lights, l.position.w = 1) :=
  ⟨initialLights_w, applyLightEdit_w,
    fun frames => runFrames_lights_w frames initialState initialLights_w⟩

/-- Witness for C10: after one frame that drags light 0's position to
(9, 8, 7), the edited light still has position.w = 1. -/
theorem lights_stay_point_lights_attest :
    (applyLightEdit light0 (LightEdit.position 9 8 7)).position.w = 1 := by
  have hmem : applyLightEdit light0 (LightEdit.position 9 8 7) ∈
      (runFrames initialState [some ⟨0, 0, none, some (LightEdit.position 9 8 7), none⟩]).lights := by
    rw [show (runFrames initialState
        [some ⟨0, 0, none, some (LightEdit.position 9 8 7), none⟩]).lights =
      [applyLightEdit light0 (LightEdit.position 9 8 7), light1] from rfl]
    exact List.mem_cons_self _ _
  exact lights_stay_point_lights.2.2
    [some ⟨0, 0, none, some (LightEdit.position 9 8 7), none⟩] _ hmem

end Ubo
